import Mathlib

/-!
Verification development for the join-monster compile-and-execute pipeline
(`src/index.js`).  The pipeline functions present in the source
(`joinMonster`, `compileSqlAST`, `getNode`, `handleUserDbCall`, `validate`)
are embedded directly; the modules the source imports but which are not part
of the source tree (the SQL AST builder, the duplicate-dependency pruner,
the alias namespace, the per-dialect stringifiers, the shape-definition
builder, the post-processor and the external hydration library) are
modelled from the specification, as marked on each definition.
-/

namespace JoinMonster

/-- A JavaScript runtime value, as far as the pipeline inspects one:
the transport may hand back arrays, objects (with a possible `rows`
property), or arbitrary scalars, and thrown errors are themselves values. -/
inductive JSValue where
  | undefined
  | null
  | bool (b : Bool)
  | num (n : Int)
  | str (s : String)
  | arr (elems : List JSValue)
  | obj (fields : List (String × JSValue))

/-- JavaScript truthiness, used by `options.dialect || ...`, `if (err)`,
`rows && rows.rows`. -/
def truthy : JSValue → Bool
  | .undefined => false
  | .null => false
  | .bool b => b
  | .num n => n != 0
  | .str s => s != ""
  | .arr _ => true
  | .obj _ => true

/-- JavaScript `Array.isArray`. -/
def isArray : JSValue → Bool
  | .arr _ => true
  | _ => false

/-- Property read `v[k]`: defined on objects, `undefined` elsewhere
(scalar property reads yield `undefined` at the properties the pipeline
inspects). -/
def getField (v : JSValue) (k : String) : JSValue :=
  match v with
  | .obj fs =>
    match fs.find? (fun p => p.1 == k) with
    | some p => p.2
    | none => .undefined
  | _ => .undefined

/-- Property write `v[k] = x` on an object (used for `obj.__type__ = type`
in `getNode`). -/
def setField (v : JSValue) (k : String) (x : JSValue) : JSValue :=
  match v with
  | .obj fs => .obj (fs.filter (fun p => p.1 != k) ++ [(k, x)])
  | w => w

/-- The `Error` thrown by `validate` when the transport result is neither an
array nor a truthy value with a truthy `rows` property (src/index.js
lines 151-159). -/
def validateError (rows : JSValue) : JSValue :=
  .obj [("name", .str "Error"),
        ("message", .str "dbCall function must return/resolve an array of objects where each object is a row from the result set"),
        ("got", rows)]

/-- Function `validate` from src/index.js lines 150-159: arrays pass through, a
truthy value with a truthy `rows` property contributes that property,
anything else throws. -/
def validate (rows : JSValue) : Except JSValue JSValue :=
  if isArray rows then .ok rows
  else if truthy rows && truthy (getField rows "rows") then .ok (getField rows "rows")
  else .error (validateError rows)

/-- Observable steps of one compile-and-execute run, used to state ordering
properties (what runs before what, and what never runs). -/
inductive Step where
  | buildStep
  | pruneStep
  | stringifyStep
  | shapeStep
  | dbCallStep
  | validateStep
  | hydrateStep
  | finalizeStep
deriving DecidableEq

/-- A SQL AST node.  Columns are kept as pairs of an underlying column name
and the list of requested output aliases served by that one SELECT
expression (a singleton before pruning; pruning merges duplicates).  The
user-supplied where/join condition generators are invoked exactly once
during stringification with the already-allocated aliases, so each is
embedded as the outcome of that single invocation: either the produced
condition text or the value it throws. -/
inductive SqlAST where
  | node (tableName : String) (tableAs : String)
         (columns : List (String × List String))
         (whereGen : Option (Except JSValue String))
         (joinGen : Option (Except JSValue String))
         (grabMany : Bool)
         (children : List SqlAST)

def SqlAST.tableName : SqlAST → String
  | .node n _ _ _ _ _ _ => n

def SqlAST.tableAs : SqlAST → String
  | .node _ a _ _ _ _ _ => a

def SqlAST.columns : SqlAST → List (String × List String)
  | .node _ _ cs _ _ _ _ => cs

def SqlAST.whereGen : SqlAST → Option (Except JSValue String)
  | .node _ _ _ wg _ _ _ => wg

def SqlAST.joinGen : SqlAST → Option (Except JSValue String)
  | .node _ _ _ _ jg _ _ => jg

def SqlAST.grabMany : SqlAST → Bool
  | .node _ _ _ _ _ gm _ => gm

def SqlAST.children : SqlAST → List SqlAST
  | .node _ _ _ _ _ _ ks => ks

/-- The closed set of dialects with a stringifier module, per the
`options.dialect` documentation in src/index.js line 46. -/
inductive DialectKind where
  | standard
  | pg
  | mysql
deriving DecidableEq

def supportedDialects : List String := ["pg", "mysql", "standard"]

/-- The error thrown by `require('./stringifiers/' + dialect)` when no
module exists for the requested dialect. -/
def moduleNotFoundError (dialect : String) : JSValue :=
  .obj [("code", .str "MODULE_NOT_FOUND"),
        ("message", .str ("Cannot find module ./stringifiers/" ++ dialect))]

/-- The call of require on the stringifier path from src/index.js
line 64: resolves a supported dialect to its stringifier, throws a
module-not-found error otherwise.  The set of stringifier modules is the
one documented at src/index.js line 46. -/
def requireStringifier (dialect : String) : Except JSValue DialectKind :=
  if dialect = "pg" then .ok .pg
  else if dialect = "mysql" then .ok .mysql
  else if dialect = "standard" then .ok .standard
  else .error (moduleNotFoundError dialect)

/-- Modelled from the spec: identifier quoting differs per dialect
(standard/pg double-quote, mysql uses its own quote character). -/
def identQuote : DialectKind → String
  | .standard => "\""
  | .pg => "\""
  | .mysql => "\x60"

/-- Modelled from the spec: a configuration error for a relation that has
neither a join generator nor junction metadata (spec 4.2 and 7). -/
def configErrorVal (field : String) : JSValue :=
  .obj [("name", .str "Error"),
        ("message", .str ("relation " ++ field ++ " lacks both a join generator and junction metadata"))]

/-- The fully-aliased SELECT expressions contributed by one node's columns:
one expression per underlying column, named by its first output alias. -/
def colSelects (q a : String) (cols : List (String × List String)) : List String :=
  cols.flatMap (fun c =>
    c.2.map (fun o => q ++ a ++ q ++ "." ++ q ++ c.1 ++ q ++ " AS " ++ q ++ o ++ q))

/-- Accumulated pieces of a rendering pass over the SQL AST. -/
structure Rendered where
  sel : List String
  joins : String
  wheres : List String

mutual
/-- Modelled from the spec: the recursive part of a dialect stringifier
(the stringifier modules under src/stringifiers/ are not in the source
tree).  Collects SELECT expressions, LEFT JOIN clauses and WHERE
conditions; each where/join generator is invoked exactly once, and a thrown
value aborts the whole pass with exactly that value (spec 4.4). -/
def renderNode (q : String) : SqlAST → Except JSValue Rendered
  | .node _ a cols wg _ _ kids =>
    match wg with
    | some (.error e) => .error e
    | some (.ok t) =>
      match renderKids q kids with
      | .error e => .error e
      | .ok kr => .ok ⟨colSelects q a cols ++ kr.sel, kr.joins, t :: kr.wheres⟩
    | none =>
      match renderKids q kids with
      | .error e => .error e
      | .ok kr => .ok ⟨colSelects q a cols ++ kr.sel, kr.joins, kr.wheres⟩

/-- Modelled from the spec: renders the child relations of a node as a
chain of LEFT (outer) joins; a child lacking a join generator is a
configuration error (spec 4.2, 4.4, 7). -/
def renderKids (q : String) : List SqlAST → Except JSValue Rendered
  | [] => .ok ⟨[], "", []⟩
  | c :: rest =>
    match c.joinGen with
    | none => .error (configErrorVal c.tableName)
    | some (.error e) => .error e
    | some (.ok cond) =>
      match renderNode q c with
      | .error e => .error e
      | .ok inner =>
        match renderKids q rest with
        | .error e => .error e
        | .ok tail =>
          .ok ⟨inner.sel ++ tail.sel,
            " LEFT JOIN " ++ q ++ c.tableName ++ q ++ " " ++ q ++ c.tableAs ++ q
              ++ " ON " ++ cond ++ inner.joins ++ tail.joins,
            inner.wheres ++ tail.wheres⟩
end

def whereClause (ws : List String) : String :=
  if ws.isEmpty then "" else " WHERE " ++ String.intercalate " AND " ws

/-- Modelled from the spec: `stringify(sqlAST, context)` for one dialect
(src/index.js line 65 dispatches to a per-dialect module not present in
the source tree).  Deterministic in its arguments; propagates generator
throws unmodified. -/
def stringifyDialect (d : DialectKind) (ast : SqlAST) (_context : JSValue) : Except JSValue String :=
  let q := identQuote d
  match renderNode q ast with
  | .error e => .error e
  | .ok r =>
    .ok ("SELECT " ++ String.intercalate ", " r.sel
      ++ " FROM " ++ q ++ ast.tableName ++ q ++ " " ++ q ++ ast.tableAs ++ q
      ++ r.joins ++ whereClause r.wheres)

/-- A shape definition: for each node of the (pruned) SQL AST, the mapping
from output keys to result-column aliases, plus one nested definition per
child relation with its cardinality flag (spec 3, 4.5). -/
inductive ShapeDef where
  | node (fields : List (String × String)) (children : List (String × ShapeDef × Bool))

def ShapeDef.fields : ShapeDef → List (String × String)
  | .node fs _ => fs

mutual
/-- Modelled from the spec: `defineObjectShape(sqlAST)` (the module is not
in the source tree).  Walks the pruned SQL AST and emits one shape entry
per originally requested output alias and one nested definition per child
relation (spec 4.5). -/
def defineObjectShape : SqlAST → ShapeDef
  | .node _ _ cols _ _ _ kids =>
    .node (cols.flatMap (fun c => c.2.map (fun o => (o, o)))) (shapeChildren kids)

/-- Modelled from the spec: the nested shape definitions of the child
relations, each carrying its cardinality flag. -/
def shapeChildren : List SqlAST → List (String × ShapeDef × Bool)
  | [] => []
  | c :: rest => (c.tableName, defineObjectShape c, c.grabMany) :: shapeChildren rest
end

/-- Modelled from the spec: one row folded through the leaf mappings of a
shape definition (the hydration library is an external collaborator,
spec 1; only its leaf-mapping behaviour is relevant here). -/
def nestRow (shape : ShapeDef) (row : JSValue) : JSValue :=
  .obj (shape.fields.map (fun p => (p.1, getField row p.2)))

/-- Modelled from the spec: `nest(rows, shapeDefinition)` from the external
hydration library folds the flat rows into objects per the shape
definition. -/
def nest (rows : JSValue) (shape : ShapeDef) : JSValue :=
  match rows with
  | .arr xs => .arr (xs.map (nestRow shape))
  | v => nestRow shape v

/-- Modelled from the spec: output keys of columns that were selected only
to satisfy a join or a pagination tie-break (never part of the requested
field set) are marked with a leading dollar sign. -/
def isInternalKey (k : String) : Bool :=
  match k.data with
  | [] => false
  | c :: _ => c == '$'

/-- Modelled from the spec: removes the internal-only keys of one hydrated
object (spec 4.6). -/
def stripInternalTop : JSValue → JSValue
  | .obj fs => .obj (fs.filter (fun p => !isInternalKey p.1))
  | v => v

/-- Modelled from the spec: `postProcess(nested, sqlAST)` (the module is
not in the source tree) finalizes the hydrated result, removing columns
that were selected only to satisfy a join or pagination tie-break
(spec 4.6). -/
def postProcess (nested : JSValue) (_sqlAST : SqlAST) : JSValue :=
  match nested with
  | .arr xs => .arr (xs.map stripInternalTop)
  | v => stripInternalTop v

/-- The three transport calling conventions dispatched on in
`handleUserDbCall` (src/index.js lines 114-148): an error-first callback
(`dbCall.length === 2`, embedded as the pair the transport passes to
`done`), a promise (embedded as the resolved rows), and a direct
synchronous return of the rows. -/
inductive DbCall where
  | callback (err : JSValue) (rows : JSValue)
  | promiseRows (rows : JSValue)
  | direct (rows : JSValue)

/-- The settled value of the promise `handleUserDbCall` returns, together
with the trace of pipeline steps that ran. -/
structure DbRun where
  result : Except JSValue JSValue
  trace : List Step

/-- Function `handleUserDbCall(dbCall, sql, shapeDefinition, sqlAST)` from
src/index.js lines 113-148.  Callback mode: a truthy error rejects with
exactly that error; otherwise the rows are validated, hydrated and
post-processed.  Promise mode: the resolved rows are validated, hydrated
and post-processed.  Direct mode (line 146): the rows are validated and
hydrated only — the source does not apply `postProcess` on this branch.
Thrown values are embedded as rejections. -/
def handleUserDbCall (dbCall : DbCall) (_sql : String) (shapeDefinition : ShapeDef)
    (sqlAST : SqlAST) : DbRun :=
  match dbCall with
  | .callback err rows =>
    if truthy err then ⟨.error err, [.dbCallStep]⟩
    else
      match validate rows with
      | .error e => ⟨.error e, [.dbCallStep, .validateStep]⟩
      | .ok rs =>
        ⟨.ok (postProcess (nest rs shapeDefinition) sqlAST),
         [.dbCallStep, .validateStep, .hydrateStep, .finalizeStep]⟩
  | .promiseRows rows =>
    match validate rows with
    | .error e => ⟨.error e, [.dbCallStep, .validateStep]⟩
    | .ok rs =>
      ⟨.ok (postProcess (nest rs shapeDefinition) sqlAST),
       [.dbCallStep, .validateStep, .hydrateStep, .finalizeStep]⟩
  | .direct rows =>
    match validate rows with
    | .error e => ⟨.error e, [.dbCallStep, .validateStep]⟩
    | .ok rs => ⟨.ok (nest rs shapeDefinition), [.dbCallStep, .validateStep, .hydrateStep]⟩

/-- The options bag of `joinMonster` (src/index.js lines 44-46):
a dialect selector and a minify flag. -/
structure JMOptions where
  dialect : Option String
  minify : Bool
deriving DecidableEq

/-- JavaScript `v || dflt` on an optional string: an absent or empty
string falls back to the default. -/
def jsOrString (v : Option String) (dflt : String) : String :=
  match v with
  | none => dflt
  | some s => if s = "" then dflt else s

/-- The dialect fallback from src/index.js line 63. -/
def effectiveDialect (options : JMOptions) : String :=
  jsOrString options.dialect "standard"

/-- Function `compileSqlAST(sqlAST, context, options)` from src/index.js
lines 59-72: selects the dialect stringifier via `require`, renders the
SQL text, then builds the shape definition; any throw aborts the call with
that value and nothing is returned.  The second component records which
steps ran. -/
def compileSqlAST (sqlAST : SqlAST) (context : JSValue) (options : JMOptions) :
    Except JSValue (String × ShapeDef) × List Step :=
  match requireStringifier (effectiveDialect options) with
  | .error e => (.error e, [])
  | .ok d =>
    match stringifyDialect d sqlAST context with
    | .error e => (.error e, [.stringifyStep])
    | .ok sql => (.ok (sql, defineObjectShape sqlAST), [.stringifyStep, .shapeStep])

/-- How a call of `joinMonster` or `getNode` terminates: a synchronous
throw (the compile step raised before any promise existed), or a returned
promise that settles. -/
inductive JMOutcome where
  | syncThrow (e : JSValue)
  | promiseResult (r : Except JSValue JSValue)

/-- Outcome and step trace of one top-level call. -/
structure JMRun where
  outcome : JMOutcome
  trace : List Step

/-- Function `joinMonster` from src/index.js lines 49-57, taking the SQL AST the
builder produced (`queryASTToSqlAST` is not in the source tree, so the
built AST is the input here): compile, short-circuit on a falsy SQL text,
otherwise hand the SQL to the transport. -/
def joinMonster (sqlAST : SqlAST) (context : JSValue) (dbCall : DbCall)
    (options : JMOptions) : JMRun :=
  match compileSqlAST sqlAST context options with
  | (.error e, tr) => ⟨.syncThrow e, tr⟩
  | (.ok (sql, shapeDefinition), tr) =>
    if sql = "" then ⟨.promiseResult (.ok (.obj [])), tr⟩
    else
      let r := handleUserDbCall dbCall sql shapeDefinition sqlAST
      ⟨.promiseResult r.result, tr ++ r.trace⟩

/-- Modelled from the spec: the minified alias code for the n-th
allocation — the shortest code over a fixed 26-letter alphabet, assigned
in allocation order (spec 3, 4.1). -/
def codeOf (n : Nat) : String :=
  if h : n < 26 then String.singleton (Char.ofNat (97 + n))
  else codeOf (n / 26 - 1) ++ String.singleton (Char.ofNat (97 + n % 26))
termination_by n
decreasing_by
  exact Nat.lt_of_le_of_lt (Nat.sub_le _ _) (Nat.div_lt_self (by omega) (by omega))

/-- Modelled from the spec: the per-compilation alias allocator
(src/aliasNamespace.js is not in the source tree).  Minified mode counts
allocations; verbose mode keeps the preferred name and adds a numeric
suffix on collision (spec 4.1). -/
structure AliasNamespace where
  minify : Bool
  mininym : Nat
  usedCounts : List (String × Nat)

/-- Constructor call of a fresh alias namespace (src/index.js line 97): a fresh
instance with no allocations. -/
def AliasNamespace.fresh (minify : Bool) : AliasNamespace :=
  ⟨minify, 0, []⟩

/-- Modelled from the spec: `allocate(preferredName)` — deterministic in
the sequence of calls; minified mode ignores the preferred name and takes
the next shortest code, verbose mode suffixes on collision (spec 4.1). -/
def AliasNamespace.generate (ns : AliasNamespace) (name : String) :
    String × AliasNamespace :=
  if ns.minify then
    (codeOf ns.mininym, { ns with mininym := ns.mininym + 1 })
  else
    match ns.usedCounts.find? (fun p => p.1 == name) with
    | none => (name, { ns with usedCounts := (name, 1) :: ns.usedCounts })
    | some p =>
      (name ++ toString p.2,
       { ns with usedCounts :=
           (name, p.2 + 1) :: ns.usedCounts.filter (fun q => q.1 != name) })

/-- A requested field tree: a field name, its mapped columns, and the
child relations (spec 6). -/
inductive FieldTree where
  | node (fieldName : String) (columns : List String) (children : List FieldTree)

mutual
/-- Modelled from the spec: the SQL AST builder (`getGraphQLType` of
src/queryASTToSqlAST.js, not in the source tree).  Allocates this node's
alias from the namespace, then recurses into the children threading the
namespace through, leaving each requested column as its own singleton
entry — duplicates are preserved at this stage (spec 4.2). -/
def buildNode (parentAs : String) : FieldTree → AliasNamespace → SqlAST × AliasNamespace
  | .node fieldName columns kids, ns =>
    let (a, ns1) := ns.generate fieldName
    let (childAsts, ns2) := buildKids a kids ns1
    (SqlAST.node fieldName a (columns.map (fun c => (c, [c])))
       none
       (if parentAs = "" then none
        else some (.ok (parentAs ++ ".id = " ++ a ++ ".parent_id")))
       false childAsts,
     ns2)

/-- Modelled from the spec: builds the child subtrees left to right,
threading the alias namespace. -/
def buildKids (parentAs : String) : List FieldTree → AliasNamespace → List SqlAST × AliasNamespace
  | [], ns => ([], ns)
  | t :: ts, ns =>
    let (x, ns1) := buildNode parentAs t ns
    let (xs, ns2) := buildKids parentAs ts ns1
    (x :: xs, ns2)
end

/-- Modelled from the spec: merges the column entries of one node that
share an underlying column, keeping one SELECT expression while retaining
every original output alias (spec 4.3). -/
def mergeCols : List (String × List String) → List (String × List String)
  | [] => []
  | c :: rest =>
    (c.1, c.2 ++ (rest.filter (fun p => p.1 == c.1)).flatMap (fun p => p.2)) ::
      mergeCols (rest.filter (fun p => p.1 != c.1))
termination_by l => l.length
decreasing_by
  simp only [List.length_cons]
  exact Nat.lt_succ_of_le (List.length_filter_le _ _)

mutual
/-- Modelled from the spec: `pruneDuplicateSqlDeps` (src/queryASTToSqlAST.js,
not in the source tree) — collapses duplicate underlying-column requests on
every node of the tree (spec 4.3). -/
def pruneNode : SqlAST → SqlAST
  | .node n a cols wg jg gm kids => .node n a (mergeCols cols) wg jg gm (pruneKids kids)

/-- Modelled from the spec: prunes each child subtree. -/
def pruneKids : List SqlAST → List SqlAST
  | [] => []
  | c :: rest => pruneNode c :: pruneKids rest
end

/-- Function `getNode` from src/index.js lines 84-109, with the requested field
tree standing for the `resolveInfo` field nodes: construct a fresh alias
namespace, build the SQL AST, prune duplicate dependencies, compile, and
hand the SQL to the transport; the resolved object gets the type name
slapped onto `__type__`.  A compile throw escapes synchronously. -/
def getNodeRun (typeName : String) (tree : FieldTree) (context : JSValue)
    (dbCall : DbCall) (options : JMOptions) : JMRun :=
  match compileSqlAST (pruneNode (buildNode "" tree (AliasNamespace.fresh options.minify)).1)
      context options with
  | (.error e, ctr) => ⟨.syncThrow e, [.buildStep, .pruneStep] ++ ctr⟩
  | (.ok (sql, shapeDefinition), ctr) =>
    let r := handleUserDbCall dbCall sql shapeDefinition
      (pruneNode (buildNode "" tree (AliasNamespace.fresh options.minify)).1)
    ⟨.promiseResult (r.result.map (fun o => setField o "__type__" (.str typeName))),
     [.buildStep, .pruneStep] ++ ctr ++ r.trace⟩

/-- The inputs of one independent top-level `getNode` call. -/
structure CompileCall where
  typeName : String
  tree : FieldTree
  context : JSValue
  dbCall : DbCall
  options : JMOptions

/-- A sequence of top-level calls run one after the other. -/
def runSequential (calls : List CompileCall) : List JMRun :=
  calls.map (fun c => getNodeRun c.typeName c.tree c.context c.dbCall c.options)

/-! Concrete fixtures used by witnesses. -/

def astW : SqlAST := .node "accounts" "accounts" [("id", ["id"])] none none false []

def ctxW : JSValue := .obj []

def shapeW : ShapeDef := defineObjectShape astW

def dbcW : DbCall := .direct (.arr [])

/-- A child relation whose user-supplied join-condition generator throws
when invoked during stringification. -/
def childThrow : SqlAST :=
  .node "comments" "comments" [("body", ["body"])] none
    (some (.error (.str "unauthorized"))) true []

/-- A SQL AST whose only throwing generator is the join generator of a
nested child relation. -/
def astThrowJoin : SqlAST :=
  .node "accounts" "accounts" [("id", ["id"])] none none false [childThrow]

/-! Helper lemmas about the step traces. -/

theorem mem_compile_trace (a : SqlAST) (c : JSValue) (o : JMOptions) :
    ∀ s ∈ (compileSqlAST a c o).2, s = Step.stringifyStep ∨ s = Step.shapeStep := by
  intro s hs
  unfold compileSqlAST at hs
  split at hs
  · simp at hs
  · split at hs <;> simp at hs <;> tauto

theorem mem_handle_trace (d : DbCall) (sql : String) (sh : ShapeDef) (ast : SqlAST) :
    ∀ s ∈ (handleUserDbCall d sql sh ast).trace,
      s = Step.dbCallStep ∨ s = Step.validateStep ∨ s = Step.hydrateStep ∨
        s = Step.finalizeStep := by
  intro s hs
  unfold handleUserDbCall at hs
  cases d <;> simp at hs
  · split at hs <;> [skip; split at hs] <;> simp at hs <;> tauto
  · split at hs <;> simp at hs <;> tauto
  · split at hs <;> simp at hs <;> tauto

theorem renderKids_append_error (q : String) (e : JSValue) (pre : List SqlAST) :
    ∀ (r : Rendered) (rest2 : List SqlAST),
      renderKids q pre = .ok r → renderKids q rest2 = .error e →
      renderKids q (pre ++ rest2) = .error e := by
  induction pre with
  | nil =>
    intro r rest2 _ h2
    simpa using h2
  | cons p ps ih =>
    intro r rest2 h1 h2
    rw [List.cons_append]
    unfold renderKids at h1 ⊢
    cases hj : p.joinGen with
    | none => simp [hj] at h1
    | some g =>
      cases g with
      | error e2 => simp [hj] at h1
      | ok cond =>
        simp only [hj] at h1 ⊢
        cases hn : renderNode q p with
        | error e2 => simp [hn] at h1
        | ok inner =>
          simp only [hn] at h1 ⊢
          cases hk : renderKids q ps with
          | error e2 => simp [hk] at h1
          | ok tail =>
            rw [ih tail rest2 hk h2]

/-- C2: for every compilation call, the compile step is all-or-nothing:
either it returns both a complete SQL text and a shape definition, or it
throws and returns neither. -/
theorem compileSqlAST_all_or_nothing (sqlAST : SqlAST) (context : JSValue)
    (options : JMOptions) :
    (∃ sql shapeDefinition,
        (compileSqlAST sqlAST context options).1 = .ok (sql, shapeDefinition)) ∨
    (∃ e, (compileSqlAST sqlAST context options).1 = .error e) := by
  cases hc : (compileSqlAST sqlAST context options).1 with
  | error e => exact Or.inr ⟨e, rfl⟩
  | ok p => exact Or.inl ⟨p.1, p.2, rfl⟩

/-- C5: compilation is deterministic — two runs of the compile step on the
same SQL AST, context and options yield identical SQL text and identical
shape definitions. -/
theorem compileSqlAST_deterministic (a a' : SqlAST) (c c' : JSValue)
    (o o' : JMOptions) (ha : a = a') (hc : c = c') (ho : o = o') :
    compileSqlAST a c o = compileSqlAST a' c' o' := by
  subst ha; subst hc; subst ho; rfl

theorem compileSqlAST_deterministic_witness :
    compileSqlAST astW ctxW ⟨some "standard", true⟩ =
      compileSqlAST astW ctxW ⟨some "standard", true⟩ :=
  compileSqlAST_deterministic astW astW ctxW ctxW ⟨some "standard", true⟩
    ⟨some "standard", true⟩ rfl rfl rfl

/-- C6: every top-level compilation constructs its own fresh alias
namespace and SQL AST and shares no state, so the outcome of each call in
any sequence of calls is exactly the outcome of that call run in
isolation — surrounding calls never influence it. -/
theorem runSequential_isolated (pre post : List CompileCall) (c : CompileCall) :
    runSequential (pre ++ c :: post) =
      runSequential pre ++
        getNodeRun c.typeName c.tree c.context c.dbCall c.options ::
          runSequential post := by
  simp [runSequential]

/-- C8: an absent or falsy `options.dialect` selects the standard dialect
stringifier. -/
theorem falsy_dialect_selects_standard (ast : SqlAST) (context : JSValue)
    (options : JMOptions)
    (h : options.dialect = none ∨ options.dialect = some "") :
    effectiveDialect options = "standard" ∧
    requireStringifier (effectiveDialect options) = .ok DialectKind.standard ∧
    compileSqlAST ast context options =
      compileSqlAST ast context ⟨some "standard", options.minify⟩ := by
  have hd : effectiveDialect options = "standard" := by
    rcases h with h | h <;> simp [effectiveDialect, jsOrString, h]
  refine ⟨hd, ?_, ?_⟩
  · rw [hd]; rfl
  · unfold compileSqlAST
    rw [hd]
    rfl

theorem falsy_dialect_selects_standard_witness :
    (JMOptions.mk none false).dialect = none ∧
      effectiveDialect ⟨none, false⟩ = "standard" ∧
      requireStringifier (effectiveDialect ⟨none, false⟩) = .ok DialectKind.standard ∧
      compileSqlAST astW ctxW ⟨none, false⟩ =
        compileSqlAST astW ctxW ⟨some "standard", (JMOptions.mk none false).minify⟩ :=
  ⟨rfl, falsy_dialect_selects_standard astW ctxW ⟨none, false⟩ (Or.inl rfl)⟩

/-- C10: in callback mode a truthy transport error rejects the returned
promise with exactly that error value, and neither row validation nor
hydration nor post-processing runs. -/
theorem callback_error_rejects (err rows : JSValue) (sql : String)
    (sh : ShapeDef) (ast : SqlAST) (h : truthy err = true) :
    (handleUserDbCall (.callback err rows) sql sh ast).result = .error err ∧
    Step.validateStep ∉ (handleUserDbCall (.callback err rows) sql sh ast).trace ∧
    Step.hydrateStep ∉ (handleUserDbCall (.callback err rows) sql sh ast).trace ∧
    Step.finalizeStep ∉ (handleUserDbCall (.callback err rows) sql sh ast).trace := by
  simp [handleUserDbCall, h]

theorem callback_error_rejects_witness :
    truthy (.str "boom") = true ∧
      (handleUserDbCall (.callback (.str "boom") (.arr [])) "SELECT 1" shapeW astW).result
        = .error (.str "boom") ∧
      Step.hydrateStep ∉
        (handleUserDbCall (.callback (.str "boom") (.arr [])) "SELECT 1" shapeW astW).trace :=
  ⟨by decide,
   (callback_error_rejects (.str "boom") (.arr []) "SELECT 1" shapeW astW (by decide)).1,
   (callback_error_rejects (.str "boom") (.arr []) "SELECT 1" shapeW astW (by decide)).2.2.1⟩

/-- C7: in every compilation, duplicate-dependency pruning runs exactly
once, immediately after the SQL AST has been built and before both
stringification and shape-definition building — the trace starts with the
build step followed by the one and only prune step, so every later step
(stringify, shape, transport) comes after it. -/
theorem getNode_prune_once_ordered (tn : String) (t : FieldTree) (c : JSValue)
    (d : DbCall) (o : JMOptions) :
    ∃ rest, (getNodeRun tn t c d o).trace =
        Step.buildStep :: Step.pruneStep :: rest ∧
      Step.pruneStep ∉ rest ∧ Step.buildStep ∉ rest := by
  unfold getNodeRun
  have hmem := mem_compile_trace
    (pruneNode (buildNode "" t (AliasNamespace.fresh o.minify)).1) c o
  rcases hc : compileSqlAST
      (pruneNode (buildNode "" t (AliasNamespace.fresh o.minify)).1) c o with ⟨r, ctr⟩
  rw [hc] at hmem
  simp only at hmem
  cases r with
  | error e =>
    refine ⟨ctr, rfl, ?_, ?_⟩ <;> intro hm <;>
      rcases hmem _ hm with h | h <;> simp at h
  | ok p =>
    rcases p with ⟨sql, sh⟩
    refine ⟨ctr ++ (handleUserDbCall d sql sh
      (pruneNode (buildNode "" t (AliasNamespace.fresh o.minify)).1)).trace, rfl, ?_, ?_⟩ <;>
      intro hm <;> rcases List.mem_append.mp hm with hm' | hm'
    · rcases hmem _ hm' with h | h <;> simp at h
    · rcases mem_handle_trace _ _ _ _ _ hm' with h | h | h | h <;> simp at h
    · rcases hmem _ hm' with h | h <;> simp at h
    · rcases mem_handle_trace _ _ _ _ _ hm' with h | h | h | h <;> simp at h

/-- C1: an unsupported dialect string makes the compile step throw the
module-not-found error synchronously — no SQL text is produced (the
stringifier never runs) and the database transport is never invoked. -/
theorem unsupported_dialect_fails_fast (ast : SqlAST) (context : JSValue)
    (d : DbCall) (options : JMOptions)
    (h : effectiveDialect options ∉ supportedDialects) :
    (compileSqlAST ast context options).1 =
        .error (moduleNotFoundError (effectiveDialect options)) ∧
    Step.stringifyStep ∉ (compileSqlAST ast context options).2 ∧
    (joinMonster ast context d options).outcome =
        .syncThrow (moduleNotFoundError (effectiveDialect options)) ∧
    Step.dbCallStep ∉ (joinMonster ast context d options).trace := by
  simp only [supportedDialects, List.mem_cons, List.mem_singleton, not_or,
    List.not_mem_nil] at h
  obtain ⟨h1, h2, h3⟩ := h
  have hreq : requireStringifier (effectiveDialect options) =
      .error (moduleNotFoundError (effectiveDialect options)) := by
    simp [requireStringifier, h1, h2, h3]
  have hcomp : compileSqlAST ast context options =
      (.error (moduleNotFoundError (effectiveDialect options)), []) := by
    unfold compileSqlAST; rw [hreq]
  refine ⟨by rw [hcomp], by rw [hcomp]; simp, ?_, ?_⟩
  · unfold joinMonster; rw [hcomp]
  · unfold joinMonster; rw [hcomp]; simp

theorem unsupported_dialect_fails_fast_witness :
    effectiveDialect ⟨some "oracle", false⟩ ∉ supportedDialects ∧
      (joinMonster astW ctxW dbcW ⟨some "oracle", false⟩).outcome =
        .syncThrow (moduleNotFoundError (effectiveDialect ⟨some "oracle", false⟩)) ∧
      Step.dbCallStep ∉ (joinMonster astW ctxW dbcW ⟨some "oracle", false⟩).trace :=
  ⟨by decide,
   (unsupported_dialect_fails_fast astW ctxW dbcW ⟨some "oracle", false⟩ (by decide)).2.2.1,
   (unsupported_dialect_fails_fast astW ctxW dbcW ⟨some "oracle", false⟩ (by decide)).2.2.2⟩

/-- C4: a value thrown by any user-supplied where or join condition
generator during stringification propagates unmodified — not caught,
wrapped or retried — out of the compilation call.  First conjunct: any
value with which the rendering pass aborts surfaces as exactly the
compile-step throw, the whole call throws it synchronously, and the
transport is never invoked.  Remaining conjuncts place the throwing
generator at every possible position: a node whose where generator throws
aborts with exactly the thrown value; a node whose where generator
succeeded (or is absent) aborts with whatever its children abort with; a
child at any sibling position (after any successfully rendered siblings)
whose join generator throws aborts with exactly the thrown value; and a
child whose join condition succeeded aborts with whatever its own subtree
aborts with — so by composition the throw of a where or join generator
arbitrarily deep in the tree reaches the caller unmodified. -/
theorem generator_throw_propagates (ast : SqlAST) (context : JSValue)
    (d : DbCall) (options : JMOptions) (e : JSValue) (q : String) :
    (∀ dk, requireStringifier (effectiveDialect options) = .ok dk →
      stringifyDialect dk ast context = .error e →
      (compileSqlAST ast context options).1 = .error e ∧
      (joinMonster ast context d options).outcome = .syncThrow e ∧
      Step.dbCallStep ∉ (joinMonster ast context d options).trace) ∧
    (∀ n a cols jg gm kids,
      renderNode q (.node n a cols (some (.error e)) jg gm kids) = .error e) ∧
    (∀ n a cols wg jg gm kids,
      (wg = none ∨ ∃ t, wg = some (Except.ok t)) →
      renderKids q kids = .error e →
      renderNode q (.node n a cols wg jg gm kids) = .error e) ∧
    (∀ pre r c rest, renderKids q pre = .ok r →
      c.joinGen = some (.error e) →
      renderKids q (pre ++ c :: rest) = .error e) ∧
    (∀ pre r c rest t, renderKids q pre = .ok r →
      c.joinGen = some (Except.ok t) → renderNode q c = .error e →
      renderKids q (pre ++ c :: rest) = .error e) := by
  refine ⟨?_, ?_, ?_, ?_, ?_⟩
  · intro dk hreq hs
    have hcomp : compileSqlAST ast context options = (.error e, [.stringifyStep]) := by
      unfold compileSqlAST
      simp only [hreq, hs]
    refine ⟨by rw [hcomp], ?_, ?_⟩
    · unfold joinMonster; rw [hcomp]
    · unfold joinMonster; rw [hcomp]; simp
  · intro n a cols jg gm kids
    simp [renderNode]
  · intro n a cols wg jg gm kids hwg hk
    rcases hwg with h | ⟨t, h⟩ <;> subst h <;> simp [renderNode, hk]
  · intro pre r c rest h1 hc
    refine renderKids_append_error q e pre r (c :: rest) h1 ?_
    unfold renderKids
    simp [hc]
  · intro pre r c rest t h1 hc hn
    refine renderKids_append_error q e pre r (c :: rest) h1 ?_
    unfold renderKids
    simp [hc, hn]

theorem generator_throw_propagates_witness :
    (joinMonster astThrowJoin ctxW dbcW ⟨some "pg", false⟩).outcome =
        .syncThrow (.str "unauthorized") ∧
      Step.dbCallStep ∉ (joinMonster astThrowJoin ctxW dbcW ⟨some "pg", false⟩).trace ∧
      renderKids "x" ([] ++ childThrow :: []) = .error (.str "unauthorized") ∧
      renderNode "x" (.node "accounts" "accounts" [("id", ["id"])]
          (some (.error (.str "unauthorized"))) none false []) =
        .error (.str "unauthorized") :=
  have hmain := generator_throw_propagates astThrowJoin ctxW dbcW
    ⟨some "pg", false⟩ (.str "unauthorized") "x"
  ⟨(hmain.1 .pg rfl rfl).2.1,
   (hmain.1 .pg rfl rfl).2.2,
   hmain.2.2.2.1 [] ⟨[], "", []⟩ childThrow [] rfl rfl,
   hmain.2.1 "accounts" "accounts" [("id", ["id"])] none false []⟩

/-- C9: validation accepts exactly the arrays (used as-is) and the truthy
values with a truthy `rows` property (that property is used as the rows);
every other value makes validation throw, and then no hydration happens in
any of the three transport conventions. -/
theorem validate_accepts_exactly (v : JSValue) :
    (isArray v = true → validate v = .ok v) ∧
    (isArray v = false → (truthy v && truthy (getField v "rows")) = true →
      validate v = .ok (getField v "rows")) ∧
    (isArray v = false → (truthy v && truthy (getField v "rows")) = false →
      validate v = .error (validateError v)) ∧
    (validate v = .error (validateError v) →
      ∀ (sql : String) (sh : ShapeDef) (ast : SqlAST),
        Step.hydrateStep ∉ (handleUserDbCall (.callback .null v) sql sh ast).trace ∧
        Step.hydrateStep ∉ (handleUserDbCall (.promiseRows v) sql sh ast).trace ∧
        Step.hydrateStep ∉ (handleUserDbCall (.direct v) sql sh ast).trace) := by
  refine ⟨?_, ?_, ?_, ?_⟩
  · intro h; simp [validate, h]
  · intro h1 h2; simp [validate, h1, h2]
  · intro h1 h2; simp [validate, h1, h2]
  · intro hv sql sh ast
    refine ⟨?_, ?_, ?_⟩ <;> simp [handleUserDbCall, truthy, hv]

theorem validate_accepts_exactly_witness :
    isArray (JSValue.arr []) = true ∧
      validate (JSValue.arr []) = .ok (JSValue.arr []) ∧
      validate (JSValue.obj [("rows", JSValue.arr [JSValue.obj []])]) =
        .ok (JSValue.arr [JSValue.obj []]) ∧
      validate (JSValue.num 0) = .error (validateError (JSValue.num 0)) ∧
      Step.hydrateStep ∉
        (handleUserDbCall (.direct (JSValue.num 0)) "" shapeW astW).trace :=
  ⟨rfl,
   (validate_accepts_exactly (JSValue.arr [])).1 rfl,
   (validate_accepts_exactly (JSValue.obj [("rows", JSValue.arr [JSValue.obj []])])).2.1 rfl rfl,
   (validate_accepts_exactly (JSValue.num 0)).2.2.1 rfl rfl,
   ((validate_accepts_exactly (JSValue.num 0)).2.2.2 rfl "" shapeW astW).2.2⟩

/-- A SQL AST whose identifier column was selected only for row-grouping:
its output key carries the internal marker, so the post-processor must
strip it from the final result. -/
def astC3 : SqlAST :=
  .node "accounts" "accounts" [("id", ["$id"]), ("name", ["name"])] none none false []

def rowsC3 : JSValue := .arr [.obj [("$id", .num 7), ("name", .str "alice")]]

/-- C3 (evidence of the divergence): with the same rows, shape definition
and SQL AST, the promise convention hands back the hydrated rows with the
post-processor applied, but the direct synchronous-return convention hands
back the raw hydrated rows — the finalize step never runs on that branch
and its absence is observable in the value (the internal-only grouping
column survives). -/
theorem direct_transport_skips_finalize :
    (handleUserDbCall (.direct rowsC3) "SELECT" (defineObjectShape astC3) astC3).result =
        .ok (nest rowsC3 (defineObjectShape astC3)) ∧
    Step.finalizeStep ∉
      (handleUserDbCall (.direct rowsC3) "SELECT" (defineObjectShape astC3) astC3).trace ∧
    (handleUserDbCall (.promiseRows rowsC3) "SELECT" (defineObjectShape astC3) astC3).result =
        .ok (postProcess (nest rowsC3 (defineObjectShape astC3)) astC3) ∧
    Step.finalizeStep ∈
      (handleUserDbCall (.promiseRows rowsC3) "SELECT" (defineObjectShape astC3) astC3).trace ∧
    nest rowsC3 (defineObjectShape astC3) =
        .arr [.obj [("$id", .num 7), ("name", .str "alice")]] ∧
    postProcess (nest rowsC3 (defineObjectShape astC3)) astC3 =
        .arr [.obj [("name", .str "alice")]] ∧
    (.arr [.obj [("$id", .num 7), ("name", .str "alice")]] : JSValue) ≠
        .arr [.obj [("name", .str "alice")]] := by
  refine ⟨rfl, by decide, rfl, by decide, rfl, rfl, by simp⟩

end JoinMonster
